import Mathlib

/-!
# Verification of the CycleSnap geometric time-stretching core

Shallow embedding of the numeric core of the CycleSnap repository:

* `GeoTimeMath` (Source/GeometricTimeSolver.cpp): geometric-series ratio
  evaluation, bisection for the per-step multiplier, bounded forward scans
  for the repetition count, and the `solve` dispatcher with its validation
  and post-solve verification.
* `MidiGridModel` (Source/MidiGridModel.cpp): grid extraction (timestamp
  dedup within a 0.001 tolerance) and segment-delta derivation with the
  single-segment 960-tick fallback.
* `MidiTransformEngine` (Source/MidiTransformEngine.cpp): regeneration of
  track streams, per-track end-of-track placement, the tolerance-based
  stable sort with event-class tie-breaking, and final integer rounding.

C++ `double` arithmetic is embedded as exact ordered-field arithmetic: all
numeric definitions are generic over a `LinearOrderedField` (instantiated
at `ℚ` for concrete evaluation, at `ℝ` where the code uses real powers
`std::pow` with non-integral exponents).  Machine integers are embedded as
`ℤ` with C++ truncated division (`Int.tdiv`/`Int.tmod`).  `std::round` and
`std::llround` (round half away from zero) are embedded as `cppRound`.
-/

namespace CycleSnap

variable {α : Type} [LinearOrderedField α]

/-- C++ `std::round` / `std::llround`: round half away from zero. -/
def cppRound [FloorRing α] (x : α) : ℤ :=
  if 0 ≤ x then ⌊x + 1 / 2⌋ else ⌈x - 1 / 2⌉

/-! ## GeoTimeMath numeric core (Source/GeometricTimeSolver.cpp)

`kEpsilon = 1e-7` is written `1 / 10000000`; the linear-shortcut tolerance
`0.001` is written `1 / 1000`. -/

/-- Embeds `compute_duration_with_step_s`: the duration ratio
`R = (Σ_{k<n} delta[k mod M] · s^k) / source_dur`, with the empty/short
guard returning `0` and the `|s - 1| < 1e-7` linear shortcut returning
`n / M`.  The C++ loop bound `k < n_steps` runs `n_steps.toNat` times. -/
def compute_duration_with_step_s (deltas : List α) (n_steps : ℤ)
    (s_step source_dur : α) : α :=
  if deltas.isEmpty ∨ source_dur ≤ 1 / 10000000 then 0
  else if |s_step - 1| < 1 / 10000000 then
    (n_steps : α) / (deltas.length : α)
  else
    (List.range n_steps.toNat).foldl
      (fun total k => total + deltas.getD (k % deltas.length) 0 * s_step ^ k) 0
      / source_dur

/-- The bracket-expansion loop of `solve_s_step_bisection`:
`while (ratio at high < target && safety++ < 30) high *= 2`.
Returns the final upper bound together with the number of doublings
performed (the second component is a ghost counter used for the
termination-bound theorems). -/
def expandGo (deltas : List α) (n : ℤ) (target_r source_dur : α) :
    ℕ → α → α × ℕ
  | 0, high => (high, 0)
  | fuel + 1, high =>
    if compute_duration_with_step_s deltas n high source_dur < target_r then
      let rest := expandGo deltas n target_r source_dur fuel (high * 2)
      (rest.1, rest.2 + 1)
    else (high, 0)

/-- The bisection loop of `solve_s_step_bisection`: up to `fuel` iterations,
returning early as soon as the residual drops below `1e-7`; when the fuel is
exhausted the C++ function returns `low + (high - low) * 0.5`.  The second
component counts loop iterations actually entered. -/
def bisectGo (deltas : List α) (n : ℤ) (target_r source_dur : α) :
    ℕ → α → α → α × ℕ
  | 0, low, high => (low + (high - low) * (1 / 2), 0)
  | fuel + 1, low, high =>
    let mid := low + (high - low) * (1 / 2)
    let r_mid := compute_duration_with_step_s deltas n mid source_dur
    if |r_mid - target_r| < 1 / 10000000 then (mid, 1)
    else if r_mid < target_r then
      let rest := bisectGo deltas n target_r source_dur fuel mid high
      (rest.1, rest.2 + 1)
    else
      let rest := bisectGo deltas n target_r source_dur fuel low mid
      (rest.1, rest.2 + 1)

/-- Embeds `solve_s_step_bisection`: if the target ratio is within `0.001`
of the unscaled repeat count `n / M` return `1.0`; otherwise expand the
upper bound of the bracket `[0.00001, 2.0]` (at most 30 doublings), then
bisect (at most 100 iterations). -/
def solve_s_step_bisection (deltas : List α) (n : ℤ)
    (target_r source_dur : α) : α :=
  let linear_r := (n : α) / (deltas.length : α)
  if |target_r - linear_r| < 1 / 1000 then 1
  else
    let low : α := 1 / 100000
    let high := (expandGo deltas n target_r source_dur 30 2).1
    (bisectGo deltas n target_r source_dur 100 low high).1

/-- Candidate list of the bounded forward scans:
`k = stride, 2·stride, …` up to `limit` inclusive, starting at `start`.
For `stride ≤ 0` the C++ `for` loop would not terminate; the scans are
only ever invoked with `stride ≥ 1` (`solve` passes `M` or `1`). -/
def scanCandidates (start stride limit : ℤ) : List ℤ :=
  if 0 < stride then
    (List.range (((limit - start).toNat / stride.toNat) + 1)).filterMap
      (fun i : ℕ =>
        if start + stride * (i : ℤ) ≤ limit then some (start + stride * (i : ℤ))
        else none)
  else []

/-- The scan loop shared by `find_best_fit_n` (and mirrored by
`find_best_fit_n_with_fixed_end`): walk the candidate list keeping the
candidate of minimum residual (`minDiff = none` embeds the
`DBL_MAX` initialisation), stopping early once the ratio has overshot the
target and the residual grows (`r > target_r && diff > min_diff`; if the
minimum was just updated this reads `diff > diff` and never fires, so the
break is only reachable when the candidate does not improve the minimum).
`ratio` is the per-candidate ratio evaluation; the second result component
counts candidates examined. -/
def scanGo (ratio : ℤ → α) (target_r : α) :
    List ℤ → Option α → ℤ → ℤ × ℕ
  | [], _, best => (best, 0)
  | k :: rest, none, _ =>
    let res := scanGo ratio target_r rest (some |ratio k - target_r|) k
    (res.1, res.2 + 1)
  | k :: rest, some md, best =>
    let r := ratio k
    let diff := |r - target_r|
    if diff < md then
      let res := scanGo ratio target_r rest (some diff) k
      (res.1, res.2 + 1)
    else if target_r < r ∧ md < diff then (best, 1)
    else
      let res := scanGo ratio target_r rest (some md) best
      (res.1, res.2 + 1)

/-- Embeds `find_best_fit_n`: bounded forward scan over candidates
`stride, 2·stride, … ≤ max(1000, 100·M)`, starting with `best_n = stride`. -/
def find_best_fit_n (deltas : List α) (s_step target_r source_dur : α)
    (step_stride : ℤ) : ℤ :=
  let limit : ℤ := max 1000 ((deltas.length : ℤ) * 100)
  (scanGo (fun k => compute_duration_with_step_s deltas k s_step source_dur)
    target_r (scanCandidates step_stride step_stride limit) none step_stride).1

/-! ## Spec-modelled multiplier search (for the refinement claim C1)

The specification describes `solveMultiplier` as: return `1.0` directly
when the target ratio is within `0.001` of the unscaled repeat count
`N/M`; otherwise start from a bracket `[low₀, 2.0]`, double the upper
bound while the ratio there is still below the target (capped at 30
doublings), then perform up to 100 bisection iterations, stopping as soon
as the residual is below `1e-7`.  The claim states `low₀ = 1e-4`; the
source uses `low₀ = 1e-5`, so the procedure is parametrised by `low₀` and
formulated with bounded iteration (`f^[n]`) rather than the source's
early-exit recursion. -/

/-- One capped doubling of the upper bound, as the spec words it: "if the
ratio at the upper bound is still below target, double the upper bound". -/
def specDouble (deltas : List α) (n : ℤ) (target_r source_dur : α)
    (high : α) : α :=
  if compute_duration_with_step_s deltas n high source_dur < target_r then
    high * 2
  else high

/-- One bisection step on the bracket, as the spec words it; reaching a
residual below `ε` collapses the bracket to the midpoint (so further
iterations leave it unchanged, modelling the early return). -/
def specBisectStep (deltas : List α) (n : ℤ) (target_r source_dur : α)
    (p : α × α) : α × α :=
  let mid := p.1 + (p.2 - p.1) * (1 / 2)
  let r_mid := compute_duration_with_step_s deltas n mid source_dur
  if |r_mid - target_r| < 1 / 10000000 then (mid, mid)
  else if r_mid < target_r then (mid, p.2) else (p.1, mid)

/-- Midpoint of a bracket. -/
def specMid (p : α × α) : α := p.1 + (p.2 - p.1) * (1 / 2)

/-- Modelled from the spec: the multiplier-search procedure of
`solveMultiplier` with bracket `[low₀, 2.0]`, at most 30 doublings of the
upper bound, at most 100 bisection iterations, residual threshold `1e-7`,
and the `|targetR - N/M| < 0.001` shortcut returning `1.0`. -/
def solveMultiplierSpec (low₀ : α) (deltas : List α) (n : ℤ)
    (target_r source_dur : α) : α :=
  if |target_r - (n : α) / (deltas.length : α)| < 1 / 1000 then 1
  else
    let high := (specDouble deltas n target_r source_dur)^[30] 2
    specMid ((specBisectStep deltas n target_r source_dur)^[100] (low₀, high))

/-! ## Real-specific solver pieces (Source/GeometricTimeSolver.cpp)

`find_best_fit_n_with_fixed_end` and `solve` use `std::pow` with
non-integral exponents (`E^(1/(N-1))`, `s_loop^(1/M)`), embedded as
`Real.rpow`; they are therefore stated over `ℝ`. -/

/-- Embeds `find_best_fit_n_with_fixed_end`.  The `|target_end - 1| < 0.001`
linear edge case returns `round(target_r · M)` re-quantized to the stride
(C++ truncated integer division) — note the `n < step_stride` clamp sits
inside the `n % step_stride != 0` branch, exactly as in the source.
Otherwise a bounded forward scan starting at `max(step_stride, 2)` derives
`s = target_end^(1/(k-1))` per candidate. -/
noncomputable def find_best_fit_n_with_fixed_end (deltas : List ℝ)
    (target_end target_r source_dur : ℝ) (step_stride : ℤ) : ℤ :=
  if |target_end - 1| < 1 / 1000 then
    let n := cppRound (target_r * (deltas.length : ℝ))
    if n.tmod step_stride ≠ 0 then
      let n2 := ((n + step_stride.tdiv 2).tdiv step_stride) * step_stride
      if n2 < step_stride then step_stride else n2
    else n
  else
    let limit : ℤ := max 1000 ((deltas.length : ℤ) * 100)
    let start := if step_stride < 2 then 2 else step_stride
    (scanGo
      (fun k => compute_duration_with_step_s deltas k
        (target_end ^ (1 / ((k : ℝ) - 1))) source_dur)
      target_r (scanCandidates start step_stride limit) none start).1

/-! ## Grid model (Source/MidiGridModel.cpp, `analyzeTimeline`) -/

/-- The grid-building loop: keep an event timestamp only when it exceeds
the last accepted grid line by more than `0.001` (`t > lastT + 0.001`). -/
def buildGridAux (lastT : α) : List α → List α
  | [] => []
  | t :: rest =>
    if lastT + 1 / 1000 < t then t :: buildGridAux t rest
    else buildGridAux lastT rest

/-- The grid timestamps: always starting at `0`, then the accepted event
timestamps of the merged (time-sorted) event stream. -/
def timePoints (events : List α) : List α := 0 :: buildGridAux 0 events

/-- Consecutive differences of the grid timestamps. -/
def gridDeltas (tps : List α) : List α :=
  List.zipWith (fun a b => b - a) tps tps.tail

/-- Embeds the delta derivation of `analyzeTimeline`: with fewer than two
grid lines, fall back to a single synthesized 960-tick segment. -/
def segmentDeltas (events : List α) : List α :=
  if (timePoints events).length < 2 then [960]
  else gridDeltas (timePoints events)

/-- Embeds `totalDurationTicks` accumulated in the same loop. -/
def totalDurationTicks (events : List α) : α :=
  if (timePoints events).length < 2 then 960
  else (gridDeltas (timePoints events)).sum

/-! ## Correspondence between the source loops and the spec procedure -/

theorem expandGo_fst_eq_iterate (deltas : List α) (n : ℤ)
    (target_r source_dur : α) :
    ∀ (fuel : ℕ) (high : α),
      (expandGo deltas n target_r source_dur fuel high).1 =
        (specDouble deltas n target_r source_dur)^[fuel] high := by
  intro fuel
  induction fuel with
  | zero => intro high; rfl
  | succ fuel ih =>
    intro high
    by_cases h :
        compute_duration_with_step_s deltas n high source_dur < target_r
    · rw [expandGo, if_pos h, Function.iterate_succ_apply]
      have hd : specDouble deltas n target_r source_dur high = high * 2 := by
        rw [specDouble, if_pos h]
      rw [hd]
      exact ih (high * 2)
    · rw [expandGo, if_neg h]
      have hd : specDouble deltas n target_r source_dur high = high := by
        rw [specDouble, if_neg h]
      rw [Function.iterate_fixed hd]

theorem specBisectStep_diag (deltas : List α) (n : ℤ)
    (target_r source_dur : α) (m : α) :
    specBisectStep deltas n target_r source_dur (m, m) = (m, m) := by
  have hm : m + (m - m) * (1 / 2) = m := by ring
  rw [specBisectStep]
  simp only [hm]
  split_ifs <;> rfl

theorem bisectGo_fst_eq_iterate (deltas : List α) (n : ℤ)
    (target_r source_dur : α) :
    ∀ (fuel : ℕ) (low high : α),
      (bisectGo deltas n target_r source_dur fuel low high).1 =
        specMid ((specBisectStep deltas n target_r source_dur)^[fuel]
          (low, high)) := by
  intro fuel
  induction fuel with
  | zero => intro low high; rfl
  | succ fuel ih =>
    intro low high
    rw [Function.iterate_succ_apply]
    by_cases h1 :
        |compute_duration_with_step_s deltas n
            (low + (high - low) * (1 / 2)) source_dur - target_r|
          < 1 / 10000000
    · have hs : specBisectStep deltas n target_r source_dur (low, high) =
          (low + (high - low) * (1 / 2), low + (high - low) * (1 / 2)) := by
        rw [specBisectStep]
        simp only []
        rw [if_pos h1]
      rw [bisectGo, if_pos h1, hs,
        Function.iterate_fixed (specBisectStep_diag deltas n target_r
          source_dur (low + (high - low) * (1 / 2)))]
      show _ = specMid (_, _)
      rw [specMid]
      ring
    · by_cases h2 :
          compute_duration_with_step_s deltas n
              (low + (high - low) * (1 / 2)) source_dur < target_r
      · have hs : specBisectStep deltas n target_r source_dur (low, high) =
            (low + (high - low) * (1 / 2), high) := by
          rw [specBisectStep]
          simp only []
          rw [if_neg h1, if_pos h2]
        rw [bisectGo, if_neg h1, if_pos h2, hs]
        exact ih _ high
      · have hs : specBisectStep deltas n target_r source_dur (low, high) =
            (low, low + (high - low) * (1 / 2)) := by
          rw [specBisectStep]
          simp only []
          rw [if_neg h1, if_neg h2]
        rw [bisectGo, if_neg h1, if_neg h2, hs]
        exact ih low _

/-- Single-step evaluation: the bracket expansion stops as soon as the
ratio at the upper bound reaches the target. -/
theorem expandGo_stop {deltas : List α} {n : ℤ} {target_r source_dur : α}
    {fuel : ℕ} (high : α)
    (h : ¬ compute_duration_with_step_s deltas n high source_dur < target_r) :
    expandGo deltas n target_r source_dur (fuel + 1) high = (high, 0) := by
  rw [expandGo, if_neg h]

/-- Single-step evaluation: the bisection returns the midpoint as soon as
the residual there is below `1e-7`. -/
theorem bisectGo_exit {deltas : List α} {n : ℤ} {target_r source_dur : α}
    {fuel : ℕ} (low high : α)
    (h : |compute_duration_with_step_s deltas n (low + (high - low) * (1 / 2))
        source_dur - target_r| < 1 / 10000000) :
    bisectGo deltas n target_r source_dur (fuel + 1) low high =
      (low + (high - low) * (1 / 2), 1) := by
  rw [bisectGo, if_pos h]

/-- C1, amended ("corrected" claim): `solve_s_step_bisection` follows the
search procedure stated in the specification — `s = 1.0` immediately when
the target ratio is within `0.001` of the unscaled repeat count `N/M`,
otherwise at most 30 doublings of the upper bound followed by at most 100
bisection iterations with early exit at residual `< 1e-7` — except that
the initial bracket is `[1e-5, 2.0]`, not `[1e-4, 2.0]` as the claim
states (`double low = 0.00001` in the source). -/
theorem C1_solve_s_step_bisection_follows_spec (deltas : List α) (n : ℤ)
    (target_r source_dur : α) :
    solve_s_step_bisection deltas n target_r source_dur =
      solveMultiplierSpec (1 / 100000) deltas n target_r source_dur := by
  rw [solve_s_step_bisection, solveMultiplierSpec]
  by_cases h : |target_r - (n : α) / (deltas.length : α)| < 1 / 1000
  · rw [if_pos h, if_pos h]
  · rw [if_neg h, if_neg h, expandGo_fst_eq_iterate, bisectGo_fst_eq_iterate]

/-- C1, counterexample: with the bracket `[1e-4, 2.0]` stated by the claim
the procedure returns `1.00005` on this input, while the source (bracket
`[1e-5, 2.0]`) returns `1.000005`: both exit on the first bisection
iteration because the deltas are scaled so that both midpoints' residuals
are below `1e-7`. -/
theorem C1_counterexample_bracket_low :
    solve_s_step_bisection ([1 / 10000] : List ℚ) 2
        (20000275 / 100000000000) 1 ≠
      solveMultiplierSpec (1 / 10000) [1 / 10000] 2
        (20000275 / 100000000000) 1 := by
  have hsrc : solve_s_step_bisection ([1 / 10000] : List ℚ) 2
      (20000275 / 100000000000) 1 = 200001 / 200000 := by
    rw [solve_s_step_bisection]
    rw [if_neg (by norm_num [abs_lt])]
    show (bisectGo [1 / 10000] 2 (20000275 / 100000000000) 1 100
        (1 / 100000)
        (expandGo [1 / 10000] 2 (20000275 / 100000000000) 1 30 2).1).1 =
      200001 / 200000
    rw [expandGo_stop 2 (by norm_num [compute_duration_with_step_s,
      Int.toNat_ofNat, List.range_succ, List.range_zero, List.foldl,
      List.getD, Nat.mod_self, abs_lt])]
    show (bisectGo [1 / 10000] 2 (20000275 / 100000000000) 1 100
        (1 / 100000) 2).1 = 200001 / 200000
    rw [bisectGo_exit (1 / 100000) 2 (by norm_num
      [compute_duration_with_step_s, Int.toNat_ofNat, List.range_succ,
        List.range_zero, List.foldl, List.getD, Nat.mod_self, abs_lt])]
    norm_num
  have hspec : solveMultiplierSpec (1 / 10000 : ℚ) [1 / 10000] 2
      (20000275 / 100000000000) 1 = 20001 / 20000 := by
    rw [solveMultiplierSpec]
    rw [if_neg (by norm_num [abs_lt])]
    rw [← expandGo_fst_eq_iterate, ← bisectGo_fst_eq_iterate]
    rw [expandGo_stop 2 (by norm_num [compute_duration_with_step_s,
      Int.toNat_ofNat, List.range_succ, List.range_zero, List.foldl,
      List.getD, Nat.mod_self, abs_lt])]
    show (bisectGo [1 / 10000] 2 (20000275 / 100000000000) 1 100
        (1 / 10000) 2).1 = 20001 / 20000
    rw [bisectGo_exit (1 / 10000) 2 (by norm_num
      [compute_duration_with_step_s, Int.toNat_ofNat, List.range_succ,
        List.range_zero, List.foldl, List.getD, Nat.mod_self, abs_lt])]
    norm_num
  rw [hsrc, hspec]
  norm_num

/-! ## Iteration-cap lemmas (for the termination claim C9) -/

theorem expandGo_snd_le (deltas : List α) (n : ℤ) (target_r source_dur : α) :
    ∀ (fuel : ℕ) (high : α),
      (expandGo deltas n target_r source_dur fuel high).2 ≤ fuel := by
  intro fuel
  induction fuel with
  | zero => intro high; exact Nat.le_refl 0
  | succ fuel ih =>
    intro high
    rw [expandGo]
    split_ifs
    · exact Nat.succ_le_succ (ih (high * 2))
    · exact Nat.zero_le _

theorem bisectGo_snd_le (deltas : List α) (n : ℤ) (target_r source_dur : α) :
    ∀ (fuel : ℕ) (low high : α),
      (bisectGo deltas n target_r source_dur fuel low high).2 ≤ fuel := by
  intro fuel
  induction fuel with
  | zero => intro low high; exact Nat.le_refl 0
  | succ fuel ih =>
    intro low high
    rw [bisectGo]
    split_ifs
    · exact Nat.succ_le_succ (Nat.zero_le fuel)
    · exact Nat.succ_le_succ (ih _ _)
    · exact Nat.succ_le_succ (ih _ _)

theorem scanGo_snd_le (ratio : ℤ → α) (target_r : α) :
    ∀ (l : List ℤ) (minDiff : Option α) (best : ℤ),
      (scanGo ratio target_r l minDiff best).2 ≤ l.length := by
  intro l
  induction l with
  | nil => intro minDiff best; cases minDiff <;> exact Nat.le_refl 0
  | cons k rest ih =>
    intro minDiff best
    cases minDiff with
    | none => exact Nat.succ_le_succ (ih _ _)
    | some md =>
      rw [scanGo]
      split_ifs
      · exact Nat.succ_le_succ (ih _ _)
      · exact Nat.succ_le_succ (Nat.zero_le _)
      · exact Nat.succ_le_succ (ih _ _)

theorem scanCandidates_length_le {start stride limit : ℤ}
    (hstart : 1 ≤ start) (hstride : 1 ≤ stride) (hlimit : 1 ≤ limit) :
    (scanCandidates start stride limit).length ≤ limit.toNat := by
  rw [scanCandidates, if_pos (by omega : (0 : ℤ) < stride)]
  have h1 : ((List.range (((limit - start).toNat / stride.toNat) + 1)).filterMap
      (fun i : ℕ =>
        if start + stride * (i : ℤ) ≤ limit then some (start + stride * (i : ℤ))
        else none)).length ≤ ((limit - start).toNat / stride.toNat) + 1 := by
    calc _ ≤ (List.range (((limit - start).toNat / stride.toNat) + 1)).length :=
            List.length_filterMap_le _ _
      _ = ((limit - start).toNat / stride.toNat) + 1 := List.length_range _
  have h2 : (limit - start).toNat / stride.toNat ≤ (limit - start).toNat :=
    Nat.div_le_self _ _
  omega

/-- C2 (code bug): the claim (and §8 of the spec) promises that
`find_best_fit_n_with_fixed_end` always returns a positive multiple of
the stride, but in the `targetEnd ≈ 1.0` linear edge case the clamp
`if (n < step_stride) n = step_stride` sits inside the
`n % step_stride != 0` branch, so `N = round(0.2 · 1) = 0` — already a
multiple of stride 1 — is returned unclamped: the function returns `0`,
which is not a positive multiple of the stride. -/
theorem C2_fixed_end_linear_case_returns_zero :
    find_best_fit_n_with_fixed_end [1] 1 (1 / 5) 1 1 = 0 := by
  have hn : cppRound ((1 / 5 : ℝ) * (([(1 : ℝ)] : List ℝ).length : ℝ)) = 0 := by
    rw [cppRound, if_pos (by norm_num)]
    rw [Int.floor_eq_iff]
    constructor <;> norm_num
  rw [find_best_fit_n_with_fixed_end, if_pos (by norm_num [abs_lt])]
  simp only [hn]
  norm_num

/-- C9: every search loop of the solver is capped — the bracket expansion
performs at most 30 doublings, the bisection at most 100 iterations, and
each forward scan (the fixed-`s` scan of `find_best_fit_n`, and the
derived-`s` scan of `find_best_fit_n_with_fixed_end`, whose per-candidate
ratio evaluation is abstracted as `ratio2`) examines at most
`max(1000, 100·M)` candidates.  Together with the fact that every
embedded definition is structurally recursive (hence total), this settles
termination of every `solve` invocation, where the stride is always
`M ≥ 1` or `1`. -/
theorem C9_search_loops_are_bounded {α : Type} [LinearOrderedField α]
    (deltas : List α) (n : ℤ) (target_r source_dur s low high : α)
    (stride : ℤ) (ratio2 : ℤ → α) (hstride : 1 ≤ stride) :
    (expandGo deltas n target_r source_dur 30 high).2 ≤ 30 ∧
    (bisectGo deltas n target_r source_dur 100 low high).2 ≤ 100 ∧
    (scanGo (fun k => compute_duration_with_step_s deltas k s source_dur)
        target_r
        (scanCandidates stride stride (max 1000 ((deltas.length : ℤ) * 100)))
        none stride).2 ≤ max 1000 (100 * deltas.length) ∧
    (scanGo ratio2 target_r
        (scanCandidates (if stride < 2 then 2 else stride) stride
          (max 1000 ((deltas.length : ℤ) * 100)))
        none (if stride < 2 then 2 else stride)).2 ≤
      max 1000 (100 * deltas.length) := by
  refine ⟨expandGo_snd_le deltas n target_r source_dur 30 high,
    bisectGo_snd_le deltas n target_r source_dur 100 low high, ?_, ?_⟩
  · calc (scanGo (fun k => compute_duration_with_step_s deltas k s source_dur)
        target_r
        (scanCandidates stride stride (max 1000 ((deltas.length : ℤ) * 100)))
        none stride).2
        ≤ (scanCandidates stride stride
            (max 1000 ((deltas.length : ℤ) * 100))).length :=
          scanGo_snd_le _ _ _ _ _
      _ ≤ (max 1000 ((deltas.length : ℤ) * 100)).toNat :=
          scanCandidates_length_le hstride hstride (by omega)
      _ ≤ max 1000 (100 * deltas.length) := by omega
  · calc (scanGo ratio2 target_r
        (scanCandidates (if stride < 2 then 2 else stride) stride
          (max 1000 ((deltas.length : ℤ) * 100)))
        none (if stride < 2 then 2 else stride)).2
        ≤ (scanCandidates (if stride < 2 then 2 else stride) stride
            (max 1000 ((deltas.length : ℤ) * 100))).length :=
          scanGo_snd_le _ _ _ _ _
      _ ≤ (max 1000 ((deltas.length : ℤ) * 100)).toNat :=
          scanCandidates_length_le (by split_ifs <;> omega) hstride (by omega)
      _ ≤ max 1000 (100 * deltas.length) := by omega

/-- Witness for C9 at a concrete input (`stride = 1`). -/
theorem C9_search_loops_are_bounded_witness :
    (expandGo ([1] : List ℚ) 4 2 1 30 2).2 ≤ 30 ∧
    (bisectGo ([1] : List ℚ) 4 2 1 100 (1 / 100000) 2).2 ≤ 100 ∧
    (scanGo (fun k => compute_duration_with_step_s ([1] : List ℚ) k 1 1) 2
        (scanCandidates 1 1 (max 1000 ((([1] : List ℚ).length : ℤ) * 100)))
        none 1).2 ≤ max 1000 (100 * ([1] : List ℚ).length) ∧
    (scanGo (fun k => (k : ℚ)) 2
        (scanCandidates (if (1 : ℤ) < 2 then 2 else 1) 1
          (max 1000 ((([1] : List ℚ).length : ℤ) * 100)))
        none (if (1 : ℤ) < 2 then 2 else 1)).2 ≤
      max 1000 (100 * ([1] : List ℚ).length) :=
  C9_search_loops_are_bounded [1] 4 2 1 1 (1 / 100000) 2 1
    (fun k => (k : ℚ)) (by norm_num)

/-! ## Grid invariants (claim C5) -/

theorem buildGridAux_chain :
    ∀ (events : List α) (lastT : α),
      List.Chain' (fun a b => a + 1 / 1000 < b)
        (lastT :: buildGridAux lastT events) := by
  intro events
  induction events with
  | nil => intro lastT; simp [buildGridAux]
  | cons t rest ih =>
    intro lastT
    rw [buildGridAux]
    split_ifs with h
    · exact List.chain'_cons.mpr ⟨h, ih t⟩
    · exact ih lastT

theorem gridDeltas_pos :
    ∀ l : List α, List.Chain' (· < ·) l → ∀ d ∈ gridDeltas l, 0 < d := by
  intro l
  induction l with
  | nil => intro _ d hd; simp [gridDeltas] at hd
  | cons a rest ih =>
    intro hc d hd
    cases rest with
    | nil => simp [gridDeltas] at hd
    | cons b rest' =>
      rw [gridDeltas] at hd
      simp only [List.tail_cons, List.zipWith_cons_cons] at hd
      rcases List.mem_cons.mp hd with hd | hd
      · subst hd
        exact sub_pos.mpr (List.chain'_cons.mp hc).1
      · exact ih (List.chain'_cons.mp hc).2 d (by rw [gridDeltas]; simpa using hd)

/-- C5: after every successful load the grid timestamps start at `0`, form
a chain in which each accepted timestamp exceeds the previous one by more
than `0.001` (hence the sequence is strictly increasing), every segment
delta is strictly positive (in the degenerate case the fallback `[960]`
also is), and the recorded total duration equals the sum of the deltas. -/
theorem C5_grid_invariants (events : List α) :
    (timePoints events).head? = some 0 ∧
    List.Chain' (fun a b => a + 1 / 1000 < b) (timePoints events) ∧
    List.Pairwise (· < ·) (timePoints events) ∧
    (∀ d ∈ segmentDeltas events, 0 < d) ∧
    totalDurationTicks events = (segmentDeltas events).sum := by
  have hchain : List.Chain' (fun a b => a + 1 / 1000 < b) (timePoints events) :=
    buildGridAux_chain events 0
  have hlt : List.Chain' (· < ·) (timePoints events) :=
    hchain.imp (fun a b h =>
      lt_of_le_of_lt (le_add_of_nonneg_right (by norm_num)) h)
  refine ⟨rfl, hchain, List.chain'_iff_pairwise.mp hlt, ?_, ?_⟩
  · intro d hd
    rw [segmentDeltas] at hd
    split_ifs at hd with h
    · rcases List.mem_singleton.mp hd with rfl
      norm_num
    · exact gridDeltas_pos (timePoints events) hlt d hd
  · rw [totalDurationTicks, segmentDeltas]
    split_ifs with h
    · norm_num
    · rfl

/-! ## The solve dispatcher (Source/GeometricTimeSolver.cpp, `solve`)

All `double` fields are embedded as `ℝ` because `solve` uses `std::pow`
with non-integral exponents (`loopToStep`, `E^(1/(N-1))`). -/

/-- Embeds `GeoTimeMath::CalculationResult` with its C++ member
initialisers as default field values. -/
structure CalculationResult where
  success : Bool := false
  message : String := ""
  beatRatio : ℝ := 1
  totalScale : ℝ := 0
  beatEnd : ℝ := 1
  repetitions : ℤ := 0
  stepScale : ℝ := 1
  realizedScale : ℝ := 0
  errorTicks : ℝ := 0
  errorMs : ℝ := 0

/-- The five solve modes of `GeoTimeMath::Mode`. -/
inductive Mode where
  | TargetTotalScale
  | FixedBeatRatio
  | MatchBeatEnd
  | FitToCurve
  | FitEndAndRatio
deriving DecidableEq

/-- A failed result: default-constructed `CalculationResult` with only the
message set (`res.message = ...; return res;`). -/
def failResult (msg : String) : CalculationResult := { message := msg }

/-- The working delta list: `{960.0}` substituted when the model is empty. -/
def workDeltas (deltas : List ℝ) : List ℝ :=
  if deltas.isEmpty then [960] else deltas

/-- The working source duration: `960.0` substituted when the model is
empty. -/
def workDur (deltas : List ℝ) (sourceDur : ℝ) : ℝ :=
  if deltas.isEmpty then 960 else sourceDur

/-- `m_seg_count`, clamped to at least 1. -/
def mSegCount (deltas : List ℝ) : ℕ :=
  if (workDeltas deltas).length < 1 then 1 else (workDeltas deltas).length

/-- Repetition-count derivation shared by the three `N`-taking modes:
round to integer steps, optionally re-quantize to the nearest multiple of
`M` with C++ truncated integer division, clamp to at least 1. -/
def clampReps (n : ℤ) (m : ℕ) (constrain : Bool) : ℤ :=
  let n1 := if constrain then ((n + (m : ℤ).tdiv 2).tdiv (m : ℤ)) * (m : ℤ)
            else n
  if n1 < 1 then 1 else n1

/-- `loopToStep`: `pow(s_loop, 1.0 / m_seg_count)`. -/
noncomputable def loopToStep (sLoop : ℝ) (m : ℕ) : ℝ :=
  sLoop ^ (1 / (m : ℝ))

/-- `stepToLoop`: `pow(s_step, m_seg_count)` with the integral exponent
`m ≥ 1`, so the C++ `pow` agrees with the monoid power. -/
def stepToLoop (sStep : ℝ) (m : ℕ) : ℝ := sStep ^ m

/-- `safe_ppq`: the time-base, replaced by 960 when not positive. -/
def safePpq (ppq : ℤ) : ℤ := if 0 < ppq then ppq else 960

/-- The verification loop of `solve`: sum of the per-step exact durations
rounded to the nearest integer tick (`std::llround`). -/
noncomputable def quantizedTicks (wd : List ℝ) (reps : ℤ) (s : ℝ) : ℝ :=
  (List.range reps.toNat).foldl
    (fun acc k => acc + ((cppRound (wd.getD (k % wd.length) 0 * s ^ k) : ℤ) : ℝ))
    0

/-- The common tail of `solve`: infer `beatEnd` (except in
`FitEndAndRatio`), set `success = true`, and annotate the result with the
realized scale, tick error and millisecond error.  This never clears
`success`. -/
noncomputable def finalizeResult (wd : List ℝ) (wdur bpm : ℝ) (ppq : ℤ)
    (mode : Mode) (res : CalculationResult) : CalculationResult :=
  let res1 := if mode ≠ Mode.FitEndAndRatio ∧ 0 < res.repetitions then
      { res with beatEnd := res.stepScale ^ (res.repetitions - 1).toNat }
    else res
  let q := quantizedTicks wd res1.repetitions res1.stepScale
  let e := |q - wdur * res1.totalScale|
  { res1 with
    success := true
    realizedScale := q / wdur
    errorTicks := e
    errorMs := e * (60000 / (bpm * ((safePpq ppq : ℤ) : ℝ))) }

/-- Embeds `GeoTimeMath::solve`. -/
noncomputable def solve (mode : Mode)
    (targetReps inputBeatRatio targetTotalScale inputBeatEnd : ℝ)
    (deltas : List ℝ) (sourceDur bpm : ℝ) (ppq : ℤ)
    (constrainToIntegerReps : Bool) : CalculationResult :=
  let wd := workDeltas deltas
  let wdur := workDur deltas sourceDur
  let m := mSegCount deltas
  let stride : ℤ := if constrainToIntegerReps then (m : ℤ) else 1
  if targetReps ≤ 0 ∧ mode ≠ Mode.FitToCurve ∧ mode ≠ Mode.FitEndAndRatio
  then failResult ("Invalid Repetitions")
  else
    match mode with
    | Mode.TargetTotalScale =>
      if targetTotalScale ≤ 0 then failResult ("Total Scale > 0 required")
      else
        let reps := clampReps (cppRound (targetReps * (m : ℝ))) m
          constrainToIntegerReps
        let s := solve_s_step_bisection wd reps targetTotalScale wdur
        finalizeResult wd wdur bpm ppq mode
          { message := "Solved Beat Ratio"
            beatRatio := stepToLoop s m
            totalScale := targetTotalScale
            repetitions := reps
            stepScale := s }
    | Mode.FixedBeatRatio =>
      if inputBeatRatio ≤ 0 then failResult ("Beat Ratio > 0 required")
      else
        let reps := clampReps (cppRound (targetReps * (m : ℝ))) m
          constrainToIntegerReps
        let s := loopToStep inputBeatRatio m
        finalizeResult wd wdur bpm ppq mode
          { message := "Calculated Total Scale"
            beatRatio := inputBeatRatio
            totalScale := compute_duration_with_step_s wd reps s wdur
            repetitions := reps
            stepScale := s }
    | Mode.MatchBeatEnd =>
      if inputBeatEnd ≤ 0 then failResult ("Beat End > 0 required")
      else
        let reps := clampReps (cppRound (targetReps * (m : ℝ))) m
          constrainToIntegerReps
        let s := if 1 < reps then inputBeatEnd ^ (1 / ((reps : ℝ) - 1))
                 else 1
        finalizeResult wd wdur bpm ppq mode
          { message := "Solved Ratio from End"
            beatRatio := stepToLoop s m
            totalScale := compute_duration_with_step_s wd reps s wdur
            repetitions := reps
            stepScale := s }
    | Mode.FitToCurve =>
      if inputBeatRatio ≤ 0 ∨ targetTotalScale ≤ 0 then
        failResult ("Invalid Input")
      else
        let s := loopToStep inputBeatRatio m
        finalizeResult wd wdur bpm ppq mode
          { message := "Solved Repetitions (Curve)"
            beatRatio := inputBeatRatio
            totalScale := targetTotalScale
            repetitions := find_best_fit_n wd s targetTotalScale wdur stride
            stepScale := s }
    | Mode.FitEndAndRatio =>
      if inputBeatEnd ≤ 0 ∨ targetTotalScale ≤ 0 then
        failResult ("Invalid Input")
      else
        let reps := find_best_fit_n_with_fixed_end wd inputBeatEnd
          targetTotalScale wdur stride
        let s := if 1 < reps then inputBeatEnd ^ (1 / ((reps : ℝ) - 1))
                 else 1
        finalizeResult wd wdur bpm ppq mode
          { message := "Solved Repetitions (End+Ratio)"
            beatRatio := stepToLoop s m
            beatEnd := inputBeatEnd
            totalScale := targetTotalScale
            repetitions := reps
            stepScale := s }

/-! ## Projection lemmas for `finalizeResult` and `failResult` -/

theorem finalizeResult_success (wd : List ℝ) (wdur bpm : ℝ) (ppq : ℤ)
    (mode : Mode) (res : CalculationResult) :
    (finalizeResult wd wdur bpm ppq mode res).success = true := rfl

theorem failResult_success (msg : String) :
    (failResult msg).success = false := rfl

theorem finalizeResult_repetitions (wd : List ℝ) (wdur bpm : ℝ) (ppq : ℤ)
    (mode : Mode) (res : CalculationResult) :
    (finalizeResult wd wdur bpm ppq mode res).repetitions =
      res.repetitions := by
  rw [finalizeResult]
  split_ifs <;> rfl

theorem finalizeResult_stepScale (wd : List ℝ) (wdur bpm : ℝ) (ppq : ℤ)
    (mode : Mode) (res : CalculationResult) :
    (finalizeResult wd wdur bpm ppq mode res).stepScale = res.stepScale := by
  rw [finalizeResult]
  split_ifs <;> rfl

theorem finalizeResult_totalScale (wd : List ℝ) (wdur bpm : ℝ) (ppq : ℤ)
    (mode : Mode) (res : CalculationResult) :
    (finalizeResult wd wdur bpm ppq mode res).totalScale = res.totalScale := by
  rw [finalizeResult]
  split_ifs <;> rfl

theorem finalizeResult_realizedScale (wd : List ℝ) (wdur bpm : ℝ) (ppq : ℤ)
    (mode : Mode) (res : CalculationResult) :
    (finalizeResult wd wdur bpm ppq mode res).realizedScale =
      quantizedTicks wd res.repetitions res.stepScale / wdur := by
  rw [finalizeResult]
  split_ifs <;> rfl

theorem finalizeResult_errorTicks (wd : List ℝ) (wdur bpm : ℝ) (ppq : ℤ)
    (mode : Mode) (res : CalculationResult) :
    (finalizeResult wd wdur bpm ppq mode res).errorTicks =
      |quantizedTicks wd res.repetitions res.stepScale -
        wdur * res.totalScale| := by
  rw [finalizeResult]
  split_ifs <;> rfl

theorem finalizeResult_errorMs (wd : List ℝ) (wdur bpm : ℝ) (ppq : ℤ)
    (mode : Mode) (res : CalculationResult) :
    (finalizeResult wd wdur bpm ppq mode res).errorMs =
      |quantizedTicks wd res.repetitions res.stepScale -
          wdur * res.totalScale| *
        (60000 / (bpm * ((safePpq ppq : ℤ) : ℝ))) := by
  rw [finalizeResult]
  split_ifs <;> rfl

/-- C4: `solve` returns a failed result (`success = false`) exactly when a
required fixed input of the selected mode is non-positive — the
repetition input for `TargetTotalScale`, `FixedBeatRatio` and
`MatchBeatEnd` (never for `FitToCurve`/`FitEndAndRatio`), plus the
mode-specific ratio/multiplier/end inputs — and every failed result
carries a non-empty human-readable message.  The embedding is a total
function, so no exception can be raised. -/
theorem C4_validation_failures (mode : Mode) (tr br ts be : ℝ) (d : List ℝ)
    (dur bpm : ℝ) (ppq : ℤ) (c : Bool) :
    ((solve mode tr br ts be d dur bpm ppq c).success = false ↔
      (match mode with
       | Mode.TargetTotalScale => tr ≤ 0 ∨ ts ≤ 0
       | Mode.FixedBeatRatio => tr ≤ 0 ∨ br ≤ 0
       | Mode.MatchBeatEnd => tr ≤ 0 ∨ be ≤ 0
       | Mode.FitToCurve => br ≤ 0 ∨ ts ≤ 0
       | Mode.FitEndAndRatio => be ≤ 0 ∨ ts ≤ 0)) ∧
    ((solve mode tr br ts be d dur bpm ppq c).success = false →
      (solve mode tr br ts be d dur bpm ppq c).message ≠ "") := by
  cases mode <;>
    · constructor
      · simp only [solve]
        split_ifs with h1 h2 <;>
          simp_all [failResult_success, finalizeResult_success, failResult]
      · intro hf
        simp only [solve] at hf ⊢
        split_ifs at hf ⊢ with h1 h2 <;>
          simp_all [failResult_success, finalizeResult_success, failResult]

/-- Witness for C4 at a concrete input: `FitToCurve` with a non-positive
repetition input does not fail when its own inputs are positive, and
`TargetTotalScale` fails on a non-positive ratio. -/
theorem C4_validation_failures_witness :
    ¬ (solve Mode.FitToCurve (-1) 2 3 1 [480] 480 120 960 false).success
        = false ∧
    (solve Mode.TargetTotalScale 2 1 0 1 [480] 480 120 960 false).success
        = false := by
  constructor
  · rw [(C4_validation_failures Mode.FitToCurve (-1) 2 3 1 [480] 480 120 960
      false).1]
    norm_num
  · rw [(C4_validation_failures Mode.TargetTotalScale 2 1 0 1 [480] 480 120
      960 false).1]
    norm_num

/-- C10: in `MatchBeatEnd` and `FitEndAndRatio` the per-step multiplier is
set to exactly `1.0` whenever the solved repetition count is at most 1;
the exponent `1/(N-1)` is evaluated only under the guard `N > 1`, so a
zero divisor in the exponent is unreachable. -/
theorem C10_unit_multiplier_guard (mode : Mode) (tr br ts be : ℝ)
    (d : List ℝ) (dur bpm : ℝ) (ppq : ℤ) (c : Bool)
    (hmode : mode = Mode.MatchBeatEnd ∨ mode = Mode.FitEndAndRatio)
    (hreps : (solve mode tr br ts be d dur bpm ppq c).repetitions ≤ 1) :
    (solve mode tr br ts be d dur bpm ppq c).stepScale = 1 := by
  rcases hmode with rfl | rfl <;>
    · simp only [solve] at hreps ⊢
      split_ifs at hreps ⊢ <;>
        first
          | rfl
          | (simp_all [failResult, finalizeResult_repetitions,
              finalizeResult_stepScale]; omega)
          | simp_all [failResult, finalizeResult_repetitions,
              finalizeResult_stepScale]

/-- C3: whenever `solve` succeeds, the drift fields satisfy
`realizedScale = (Σ_{k<N} round(delta[k mod M]·s^k)) / sourceDuration`,
`errorTicks = |that sum − sourceDuration·R|` and
`errorMs = errorTicks · 60000/(bpm·ppq)` with `ppq` replaced by 960 when
not positive (`delta`/`sourceDuration` being the working values, i.e. the
`[960]`/`960` fallback when the delta list is empty); the verification
block runs after `success` is set and never clears it. -/
theorem C3_verification_fields (mode : Mode) (tr br ts be : ℝ) (d : List ℝ)
    (dur bpm : ℝ) (ppq : ℤ) (c : Bool)
    (h : (solve mode tr br ts be d dur bpm ppq c).success = true) :
    (solve mode tr br ts be d dur bpm ppq c).realizedScale =
      quantizedTicks (workDeltas d)
        (solve mode tr br ts be d dur bpm ppq c).repetitions
        (solve mode tr br ts be d dur bpm ppq c).stepScale / workDur d dur ∧
    (solve mode tr br ts be d dur bpm ppq c).errorTicks =
      |quantizedTicks (workDeltas d)
          (solve mode tr br ts be d dur bpm ppq c).repetitions
          (solve mode tr br ts be d dur bpm ppq c).stepScale -
        workDur d dur * (solve mode tr br ts be d dur bpm ppq c).totalScale| ∧
    (solve mode tr br ts be d dur bpm ppq c).errorMs =
      (solve mode tr br ts be d dur bpm ppq c).errorTicks *
        (60000 / (bpm * ((safePpq ppq : ℤ) : ℝ))) := by
  cases mode <;>
    · simp only [solve] at h ⊢
      split_ifs at h ⊢ <;>
        simp_all [failResult, finalizeResult_success,
          finalizeResult_repetitions, finalizeResult_stepScale,
          finalizeResult_totalScale, finalizeResult_realizedScale,
          finalizeResult_errorTicks, finalizeResult_errorMs]

/-- Evaluation helper for `cppRound` at non-negative concrete inputs. -/
theorem cppRound_eq [FloorRing α] (x : α) (z : ℤ) (h0 : 0 ≤ x)
    (h1 : (z : α) ≤ x + 1 / 2) (h2 : x + 1 / 2 < z + 1) : cppRound x = z := by
  rw [cppRound, if_pos h0, Int.floor_eq_iff]
  exact ⟨h1, h2⟩

/-- Witness for C10 at a concrete input: `MatchBeatEnd` with half a
repetition of a single-segment source solves `N = 1`, and the per-step
multiplier is `1.0` rather than `4^(1/0)`. -/
theorem C10_unit_multiplier_guard_witness :
    (solve Mode.MatchBeatEnd (1 / 2) 1 1 4 [480] 480 120 960
        false).repetitions ≤ 1 ∧
    (solve Mode.MatchBeatEnd (1 / 2) 1 1 4 [480] 480 120 960
        false).stepScale = 1 := by
  have hm : mSegCount [480] = 1 := by
    norm_num [mSegCount, workDeltas]
  have hcr : cppRound ((1 / 2 : ℝ) * ((mSegCount [480] : ℕ) : ℝ)) = 1 := by
    rw [hm]
    exact cppRound_eq _ 1 (by norm_num) (by norm_num) (by norm_num)
  have hreps : (solve Mode.MatchBeatEnd (1 / 2) 1 1 4 [480] 480 120 960
      false).repetitions = 1 := by
    simp only [solve]
    rw [if_neg (by norm_num), if_neg (by norm_num)]
    rw [finalizeResult_repetitions, hcr, hm]
    norm_num [clampReps]
  refine ⟨le_of_eq hreps, ?_⟩
  exact C10_unit_multiplier_guard Mode.MatchBeatEnd (1 / 2) 1 1 4 [480] 480
    120 960 false (Or.inl rfl) (le_of_eq hreps)

/-- Witness for C3: the regeneration scenario of the claim — deltas
`[480, 480]`, ratio `1.0` over two loops (`N = 4`, `s = 1.0`) — succeeds
with realized scale `2.0` and zero tick error. -/
theorem C3_verification_fields_witness :
    (solve Mode.FixedBeatRatio 2 1 0 1 [480, 480] 960 120 960
        false).success = true ∧
    (solve Mode.FixedBeatRatio 2 1 0 1 [480, 480] 960 120 960
        false).realizedScale = 2 ∧
    (solve Mode.FixedBeatRatio 2 1 0 1 [480, 480] 960 120 960
        false).errorTicks = 0 := by
  have hm : mSegCount [480, 480] = 2 := by
    norm_num [mSegCount, workDeltas]
  have hcr : cppRound ((2 : ℝ) * ((mSegCount [480, 480] : ℕ) : ℝ)) = 4 := by
    rw [hm]
    exact cppRound_eq _ 4 (by norm_num) (by norm_num) (by norm_num)
  have hsucc : (solve Mode.FixedBeatRatio 2 1 0 1 [480, 480] 960 120 960
      false).success = true := by
    simp only [solve]
    rw [if_neg (by norm_num), if_neg (by norm_num)]
    exact finalizeResult_success _ _ _ _ _ _
  have hreps : (solve Mode.FixedBeatRatio 2 1 0 1 [480, 480] 960 120 960
      false).repetitions = 4 := by
    simp only [solve]
    rw [if_neg (by norm_num), if_neg (by norm_num)]
    rw [finalizeResult_repetitions, hcr, hm]
    norm_num [clampReps]
  have hstep : (solve Mode.FixedBeatRatio 2 1 0 1 [480, 480] 960 120 960
      false).stepScale = 1 := by
    simp only [solve]
    rw [if_neg (by norm_num), if_neg (by norm_num)]
    rw [finalizeResult_stepScale]
    show loopToStep 1 (mSegCount [480, 480]) = 1
    rw [loopToStep, Real.one_rpow]
  have htot : (solve Mode.FixedBeatRatio 2 1 0 1 [480, 480] 960 120 960
      false).totalScale = 2 := by
    simp only [solve]
    rw [if_neg (by norm_num), if_neg (by norm_num)]
    rw [finalizeResult_totalScale]
    show compute_duration_with_step_s (workDeltas [480, 480])
      (clampReps (cppRound (2 * ((mSegCount [480, 480] : ℕ) : ℝ)))
        (mSegCount [480, 480]) false)
      (loopToStep 1 (mSegCount [480, 480])) (workDur [480, 480] 960) = 2
    rw [hcr, hm, loopToStep, Real.one_rpow]
    norm_num [clampReps, workDeltas, workDur, compute_duration_with_step_s]
  have hq : quantizedTicks (workDeltas [480, 480]) 4 1 = 1920 := by
    have hc : cppRound ((480 : ℝ)) = 480 :=
      cppRound_eq _ 480 (by norm_num) (by norm_num) (by norm_num)
    rw [quantizedTicks, show Int.toNat 4 = 4 from rfl, workDeltas]
    norm_num [List.range_succ, List.getD, hc]
  have h := C3_verification_fields Mode.FixedBeatRatio 2 1 0 1 [480, 480]
    960 120 960 false hsucc
  refine ⟨hsucc, ?_, ?_⟩
  · rw [h.1, hreps, hstep, hq]
    norm_num [workDur]
  · rw [h.2.1, hreps, hstep, hq, htot]
    norm_num [workDur]

/-- C8: a degenerate source never divides by zero in any solve mode — with
fewer than two grid timestamps `analyzeTimeline` substitutes the single
synthesized segment `[960]` with duration `960`; `solve` on an empty
delta list behaves exactly as on the substituted `[960]`/`960` input; and
the working segment count and (for the degenerate case) the working
source duration are positive, so every divisor derived from them is
positive. -/
theorem C8_degenerate_source_fallback (events : List ℚ) (mode : Mode)
    (tr br ts be dur bpm : ℝ) (ppq : ℤ) (c : Bool) (d : List ℝ) :
    ((timePoints events).length < 2 →
      segmentDeltas events = [960] ∧ totalDurationTicks events = 960) ∧
    solve mode tr br ts be [] dur bpm ppq c =
      solve mode tr br ts be [960] 960 bpm ppq c ∧
    0 < (workDeltas d).length ∧
    0 < mSegCount d ∧
    workDur [] dur = 960 := by
  refine ⟨?_, ?_, ?_, ?_, rfl⟩
  · intro h
    rw [segmentDeltas, if_pos h, totalDurationTicks, if_pos h]
    exact ⟨rfl, rfl⟩
  · have h1 : workDeltas [] = workDeltas [960] := by
      norm_num [workDeltas]
    have h2 : workDur [] dur = workDur [960] 960 := by
      norm_num [workDur]
    have h3 : mSegCount ([] : List ℝ) = mSegCount [960] := by
      norm_num [mSegCount, workDeltas]
    simp only [solve, h1, h2, h3]
  · cases d with
    | nil => simp [workDeltas]
    | cons x xs => simp [workDeltas]
  · rw [mSegCount]
    split_ifs <;> omega

/-- Witness for C8: the empty event list yields the single grid line `[0]`
and the synthesized `[960]` segment, and `solve` on the empty delta list
coincides with `solve` on `[960]`/`960`. -/
theorem C8_degenerate_source_fallback_witness :
    segmentDeltas ([] : List ℚ) = [960] ∧
    totalDurationTicks ([] : List ℚ) = 960 ∧
    solve Mode.TargetTotalScale 1 1 2 1 [] 960 120 960 false =
      solve Mode.TargetTotalScale 1 1 2 1 [960] 960 120 960 false := by
  have h := C8_degenerate_source_fallback ([] : List ℚ) Mode.TargetTotalScale
    1 1 2 1 960 120 960 false []
  have hd := h.1 (by norm_num [timePoints, buildGridAux])
  exact ⟨hd.1, hd.2, h.2.1⟩

/-! ## Transform engine (Source/MidiTransformEngine.cpp, `generateOutput`)

Events are abstracted to their class (the only property the engine's
sorting and placement logic inspects, via `isMetaEvent`/`isNoteOff`/
`isNoteOn`/end-of-track checks) plus their time.  `meta` stands for a
non-end-of-track metadata event, `other` for any remaining (control)
event. -/

/-- Event classes distinguished by the engine's tie-break priority. -/
inductive EvKind where
  | meta
  | noteOff
  | noteOn
  | other
  | eot
deriving DecidableEq

/-- The tie-break priority of `generateOutput`'s sort
(`Meta > NoteOff > NoteOn > CC`, end-of-track always last). -/
def getPriority : EvKind → ℕ
  | EvKind.eot => 4
  | EvKind.meta => 0
  | EvKind.noteOff => 1
  | EvKind.noteOn => 2
  | EvKind.other => 3

/-- A bucketed event of the grid model (`QueuedEvent`): originating track,
groove offset (the rewritten timestamp), and event class. -/
structure QEvent (α : Type) where
  sourceTrackIndex : ℤ
  offset : α
  kind : EvKind

/-- The comparator passed to `std::stable_sort`: time order when the
times differ by more than `1e-6`, event-class priority otherwise. -/
def evLt (a b : α × EvKind) : Prop :=
  if 1 / 1000000 < |a.1 - b.1| then a.1 < b.1
  else getPriority a.2 < getPriority b.2

instance : DecidableRel (evLt (α := α)) := fun a b => by
  unfold evLt
  infer_instance

/-- `a` may be placed before `b` by a stable sort with comparator `evLt`
(i.e. `b` is not strictly before `a`). -/
def evLe (a b : α × EvKind) : Prop := ¬ evLt b a

instance : DecidableRel (evLe (α := α)) := fun a b => by
  unfold evLe
  infer_instance

/-- `std::stable_sort` with the engine's comparator, modelled as a stable
insertion sort (for a strict-weak-order comparator every stable sort
produces this unique output). -/
def stableSortEvents (l : List (α × EvKind)) : List (α × EvKind) :=
  List.insertionSort evLe l

/-- The `addScaledEvents` helper of `generateOutput`: events of a bucket,
filtered to valid tracks, emitted at `base + offset · s^k`. -/
def scaledEvents (segments : List (List (QEvent α))) (numTracks : ℤ)
    (s : α) (k : ℕ) (bucketIdx : ℕ) (base : α) : List (ℤ × α × EvKind) :=
  if bucketIdx < segments.length then
    ((segments.getD bucketIdx []).filter
        (fun e => 0 ≤ e.sourceTrackIndex && e.sourceTrackIndex < numTracks)).map
      (fun e => (e.sourceTrackIndex, base + e.offset * s ^ k, e.kind))
  else []

/-- The step loop of `generateOutput` (step 3 of the regeneration
algorithm): at step `k` the cursor advances by `deltas[k mod M] · s^k`;
the events of bucket `(k mod M) + 1` land at the new cursor, except at a
loop boundary where the terminal bucket and (unless this is the last
step) bucket 0 of the next loop are emitted instead.  Returns the emitted
`(track, time, kind)` log in push order and the final cursor. -/
def genSteps (segments : List (List (QEvent α))) (deltas : List α)
    (numTracks : ℤ) (s : α) (totalSteps : ℤ) :
    ℕ → ℕ → α → List (ℤ × α × EvKind) × α
  | _, 0, t => ([], t)
  | k, remaining + 1, t =>
    let segIdx := k % deltas.length
    let tNext := t + deltas.getD segIdx 0 * s ^ k
    let evs :=
      if segIdx + 1 = deltas.length then
        (if deltas.length < segments.length then
          scaledEvents segments numTracks s k deltas.length tNext
        else []) ++
        (if (k : ℤ) < totalSteps - 1 then
          scaledEvents segments numTracks s k 0 tNext
        else [])
      else scaledEvents segments numTracks s k (segIdx + 1) tNext
    let rest := genSteps segments deltas numTracks s totalSteps
      (k + 1) remaining tNext
    (evs ++ rest.1, rest.2)

/-- The full emission log of `generateOutput` before per-track
finalisation: injected metadata (tempo and time signature, at time 0 on
track 0), the verbatim bucket-0 events, then the geometric steps.
Returns the log in push order together with the final cursor. -/
def emitLog (segments : List (List (QEvent α))) (deltas : List α)
    (numTracks : ℤ) (s : α) (totalSteps : ℤ) :
    List (ℤ × α × EvKind) × α :=
  let metaEvs : List (ℤ × α × EvKind) :=
    if 0 < numTracks then [(0, 0, EvKind.meta), (0, 0, EvKind.meta)] else []
  let initEvs :=
    ((segments.headD []).filter
        (fun e => 0 ≤ e.sourceTrackIndex && e.sourceTrackIndex < numTracks)).map
      (fun e => (e.sourceTrackIndex, e.offset, e.kind))
  let steps := genSteps segments deltas numTracks s totalSteps 0
    totalSteps.toNat 0
  (metaEvs ++ initEvs ++ steps.1, steps.2)

/-- One track's buffered stream: the log filtered to the track, with the
end-of-track marker appended at the final cursor. -/
def trackStream (log : List (ℤ × α × EvKind)) (tEnd : α) (t : ℤ) :
    List (α × EvKind) :=
  (log.filter (fun e => e.1 == t)).map (fun e => (e.2.1, e.2.2)) ++
    [(tEnd, EvKind.eot)]

/-- One finalised output track: the buffered stream stably sorted and
rounded to integer ticks (`std::llround`). -/
def trackOutput [FloorRing α] (log : List (ℤ × α × EvKind)) (tEnd : α)
    (t : ℤ) : List (ℤ × EvKind) :=
  (stableSortEvents (trackStream log tEnd t)).map
    (fun e => (cppRound e.1, e.2))

/-- Embeds `MidiTransformEngine::generateOutput` (given a loaded model,
whose segments/deltas are the inputs here): fails on an empty
segmentation, otherwise produces one finalised stream per track. -/
def generateOutput [FloorRing α] (segments : List (List (QEvent α)))
    (deltas : List α) (numTracks : ℤ) (s : α) (totalSteps : ℤ) :
    Option (List (List (ℤ × EvKind))) :=
  if deltas.length = 0 then none
  else
    let log := emitLog segments deltas numTracks s totalSteps
    some ((List.range numTracks.toNat).map
      (fun t : ℕ => trackOutput log.1 log.2 (t : ℤ)))

/-- The property claimed by C6 of a finalised track: the end-of-track
marker sits at the latest time seen on the track. -/
def eotAtLatestTime (tr : List (ℤ × EvKind)) : Prop :=
  ∀ e ∈ tr, e.2 = EvKind.eot → ∀ e2 ∈ tr, e2.1 ≤ e.1

/-- The property claimed by C7 of a finalised track: among events with
identical (final, integer) timestamps, the event-class priority is
non-decreasing — metadata, then note-off, then note-on, then other
events, with end-of-track markers last. -/
def prioOrderedAtEqualTimes (tr : List (ℤ × EvKind)) : Prop :=
  List.Pairwise (fun a b => a.1 = b.1 → getPriority a.2 ≤ getPriority b.2) tr

/-- C6, counterexample: with `totalSteps = 0` and a bucket-0 note-on at
offset 40, the end-of-track marker is placed at the final cursor `0`,
while the note-on sits at 40 — the marker is not at the latest time seen
on the track. -/
theorem C6_counterexample_eot_not_at_latest :
    generateOutput ([[⟨0, 40, EvKind.noteOn⟩]] : List (List (QEvent ℚ)))
        [100] 1 1 0 =
      some [[(0, EvKind.meta), (0, EvKind.meta), (0, EvKind.eot),
        (40, EvKind.noteOn)]] ∧
    ¬ eotAtLatestTime [(0, EvKind.meta), (0, EvKind.meta), (0, EvKind.eot),
        (40, EvKind.noteOn)] := by
  constructor
  · have hc0 : cppRound ((0 : ℚ)) = 0 :=
      cppRound_eq _ 0 (by norm_num) (by norm_num) (by norm_num)
    have hc40 : cppRound ((40 : ℚ)) = 40 :=
      cppRound_eq _ 40 (by norm_num) (by norm_num) (by norm_num)
    norm_num [generateOutput, emitLog, genSteps, scaledEvents, trackStream,
      trackOutput, stableSortEvents, List.insertionSort, List.orderedInsert,
      evLe, evLt, getPriority, List.range_succ, List.filter, abs_le, abs_lt,
      hc0, hc40]
  · intro h
    have := h (0, EvKind.eot) (by simp) rfl (40, EvKind.noteOn) (by simp)
    norm_num at this

/-- C7, counterexample: two source events with groove offsets `0.4` and
`0.45` regenerate at distinct buffered times (sorted purely by time,
note-on first), but integer rounding collapses both onto tick `0`, so the
final track contains a note-on *before* a note-off at the identical
timestamp `0` (and an end-of-track marker before both). -/
theorem C7_counterexample_rounding_collapse :
    generateOutput
        ([[⟨0, 2 / 5, EvKind.noteOn⟩, ⟨0, 9 / 20, EvKind.noteOff⟩]] :
          List (List (QEvent ℚ))) [100] 1 1 0 =
      some [[(0, EvKind.meta), (0, EvKind.meta), (0, EvKind.eot),
        (0, EvKind.noteOn), (0, EvKind.noteOff)]] ∧
    ¬ prioOrderedAtEqualTimes [(0, EvKind.meta), (0, EvKind.meta),
        (0, EvKind.eot), (0, EvKind.noteOn), (0, EvKind.noteOff)] := by
  constructor
  · have hc0 : cppRound ((0 : ℚ)) = 0 :=
      cppRound_eq _ 0 (by norm_num) (by norm_num) (by norm_num)
    have hc25 : cppRound ((2 : ℚ) / 5) = 0 :=
      cppRound_eq _ 0 (by norm_num) (by norm_num) (by norm_num)
    have hc920 : cppRound ((9 : ℚ) / 20) = 0 :=
      cppRound_eq _ 0 (by norm_num) (by norm_num) (by norm_num)
    norm_num [generateOutput, emitLog, genSteps, scaledEvents, trackStream,
      trackOutput, stableSortEvents, List.insertionSort, List.orderedInsert,
      evLe, evLt, getPriority, List.range_succ, List.filter, abs_le, abs_lt,
      hc0, hc25, hc920]
  · intro h
    simp [prioOrderedAtEqualTimes, getPriority] at h

/-! ## Kind-tracking lemmas: the emission log never contains an
end-of-track marker (the grid model filters meta `0x2F` events out of the
buckets, so only the per-track append introduces one). -/

theorem scaledEvents_kind_ne_eot {segments : List (List (QEvent α))}
    (hseg : ∀ seg ∈ segments, ∀ q ∈ seg, q.kind ≠ EvKind.eot)
    {numTracks : ℤ} {s : α} {k bucketIdx : ℕ} {base : α}
    {e : ℤ × α × EvKind}
    (he : e ∈ scaledEvents segments numTracks s k bucketIdx base) :
    e.2.2 ≠ EvKind.eot := by
  rw [scaledEvents] at he
  split_ifs at he with h
  · rcases List.mem_map.mp he with ⟨q, hq, rfl⟩
    have hq' := List.mem_of_mem_filter hq
    have hmem : segments.getD bucketIdx [] ∈ segments := by
      rw [List.getD_eq_getElem _ _ h]
      exact List.getElem_mem h
    exact hseg _ hmem q hq'
  · simp at he

theorem genSteps_kind_ne_eot {segments : List (List (QEvent α))}
    {deltas : List α} {numTracks : ℤ} {s : α} {totalSteps : ℤ}
    (hseg : ∀ seg ∈ segments, ∀ q ∈ seg, q.kind ≠ EvKind.eot) :
    ∀ (remaining k : ℕ) (t : α) (e : ℤ × α × EvKind),
      e ∈ (genSteps segments deltas numTracks s totalSteps k remaining t).1 →
        e.2.2 ≠ EvKind.eot := by
  intro remaining
  induction remaining with
  | zero =>
    intro k t e he
    simp [genSteps] at he
  | succ remaining ih =>
    intro k t e he
    rw [genSteps] at he
    rcases List.mem_append.mp he with he | he
    · split_ifs at he with h1 h2 h3
      · rcases List.mem_append.mp he with he | he
        · exact scaledEvents_kind_ne_eot hseg he
        · exact scaledEvents_kind_ne_eot hseg he
      · rcases List.mem_append.mp he with he | he
        · exact scaledEvents_kind_ne_eot hseg he
        · simp at he
      · rcases List.mem_append.mp he with he | he
        · simp at he
        · exact scaledEvents_kind_ne_eot hseg he
      · rcases List.mem_append.mp he with he | he
        · simp at he
        · simp at he
      · exact scaledEvents_kind_ne_eot hseg he
    · exact ih (k + 1) _ e he

theorem emitLog_kind_ne_eot {segments : List (List (QEvent α))}
    {deltas : List α} {numTracks : ℤ} {s : α} {totalSteps : ℤ}
    (hseg : ∀ seg ∈ segments, ∀ q ∈ seg, q.kind ≠ EvKind.eot)
    {e : ℤ × α × EvKind}
    (he : e ∈ (emitLog segments deltas numTracks s totalSteps).1) :
    e.2.2 ≠ EvKind.eot := by
  rw [emitLog] at he
  rcases List.mem_append.mp he with he | he
  · rcases List.mem_append.mp he with he | he
    · split_ifs at he
      · rcases List.mem_cons.mp he with rfl | he
        · simp
        · rcases List.mem_singleton.mp he with rfl
          simp
      · simp at he
    · rcases List.mem_map.mp he with ⟨q, hq, rfl⟩
      have hq' := List.mem_of_mem_filter hq
      cases segments with
      | nil => simp at hq'
      | cons s0 rest =>
        exact hseg s0 (List.mem_cons_self s0 rest) q hq'
  · exact genSteps_kind_ne_eot hseg _ _ _ e he

theorem trackStream_countP_eot {log : List (ℤ × α × EvKind)}
    (hlog : ∀ e ∈ log, e.2.2 ≠ EvKind.eot) (tEnd : α) (t : ℤ) :
    List.countP (fun e => e.2 == EvKind.eot) (trackStream log tEnd t) = 1 := by
  rw [trackStream, List.countP_append]
  have h0 : List.countP (fun e => e.2 == EvKind.eot)
      ((log.filter (fun e => e.1 == t)).map (fun e => (e.2.1, e.2.2))) = 0 := by
    rw [List.countP_eq_zero]
    intro a ha
    rcases List.mem_map.mp ha with ⟨x, hx, rfl⟩
    simpa using hlog x (List.mem_of_mem_filter hx)
  rw [h0]
  simp

/-- C6, amended ("corrected" claim): for every successful generation from
a model whose buckets contain no end-of-track events (as the grid model
guarantees), every output track contains exactly one end-of-track marker,
and it is placed at the rounded final cursor position
`Σ_{k<N} delta[k mod M]·s^k` — which is not, in general, the latest time
seen on the track (see the counterexample). -/
theorem C6_single_eot_at_final_cursor [FloorRing α]
    (segments : List (List (QEvent α))) (deltas : List α) (numTracks : ℤ)
    (s : α) (totalSteps : ℤ)
    (hseg : ∀ seg ∈ segments, ∀ q ∈ seg, q.kind ≠ EvKind.eot)
    (out : List (List (ℤ × EvKind)))
    (hout : generateOutput segments deltas numTracks s totalSteps = some out) :
    ∀ tr ∈ out,
      List.countP (fun e => e.2 == EvKind.eot) tr = 1 ∧
      ∀ e ∈ tr, e.2 = EvKind.eot →
        e.1 = cppRound (emitLog segments deltas numTracks s totalSteps).2 := by
  rw [generateOutput] at hout
  split_ifs at hout with h
  rcases Option.some.inj hout with rfl
  intro tr htr
  rcases List.mem_map.mp htr with ⟨t, _, rfl⟩
  have hlog : ∀ e ∈ (emitLog segments deltas numTracks s totalSteps).1,
      e.2.2 ≠ EvKind.eot := fun e he => emitLog_kind_ne_eot hseg he
  constructor
  · rw [trackOutput, List.countP_map]
    have hperm : List.Perm (stableSortEvents (trackStream
        (emitLog segments deltas numTracks s totalSteps).1
        (emitLog segments deltas numTracks s totalSteps).2 (t : ℤ)))
        (trackStream (emitLog segments deltas numTracks s totalSteps).1
          (emitLog segments deltas numTracks s totalSteps).2 (t : ℤ)) :=
      List.perm_insertionSort _ _
    rw [hperm.countP_eq]
    exact trackStream_countP_eot hlog _ _
  · intro e he hk
    rw [trackOutput] at he
    rcases List.mem_map.mp he with ⟨x, hx, rfl⟩
    have hxl : x ∈ trackStream
        (emitLog segments deltas numTracks s totalSteps).1
        (emitLog segments deltas numTracks s totalSteps).2 (t : ℤ) := by
      have hperm : List.Perm (stableSortEvents (trackStream
          (emitLog segments deltas numTracks s totalSteps).1
          (emitLog segments deltas numTracks s totalSteps).2 (t : ℤ)))
          (trackStream (emitLog segments deltas numTracks s totalSteps).1
            (emitLog segments deltas numTracks s totalSteps).2 (t : ℤ)) :=
        List.perm_insertionSort _ _
      exact hperm.mem_iff.mp hx
    rw [trackStream] at hxl
    rcases List.mem_append.mp hxl with hxl | hxl
    · rcases List.mem_map.mp hxl with ⟨y, hy, rfl⟩
      exact absurd hk (hlog y (List.mem_of_mem_filter hy))
    · rcases List.mem_singleton.mp hxl with rfl
      rfl

/-- Witness for C6 (amended) at a concrete one-step generation: the single
end-of-track marker sits at the rounded final cursor `100`. -/
theorem C6_single_eot_at_final_cursor_witness :
    List.countP (fun e => e.2 == EvKind.eot)
      [((0 : ℤ), EvKind.meta), (0, EvKind.meta), (40, EvKind.noteOn),
        (100, EvKind.eot)] = 1 ∧
    generateOutput ([[⟨0, 40, EvKind.noteOn⟩]] : List (List (QEvent ℚ)))
        [100] 1 1 1 =
      some [[(0, EvKind.meta), (0, EvKind.meta), (40, EvKind.noteOn),
        (100, EvKind.eot)]] := by
  have hc0 : cppRound ((0 : ℚ)) = 0 :=
    cppRound_eq _ 0 (by norm_num) (by norm_num) (by norm_num)
  have hc40 : cppRound ((40 : ℚ)) = 40 :=
    cppRound_eq _ 40 (by norm_num) (by norm_num) (by norm_num)
  have hc100 : cppRound ((100 : ℚ)) = 100 :=
    cppRound_eq _ 100 (by norm_num) (by norm_num) (by norm_num)
  have hgen : generateOutput ([[⟨0, 40, EvKind.noteOn⟩]] :
      List (List (QEvent ℚ))) [100] 1 1 1 =
      some [[(0, EvKind.meta), (0, EvKind.meta), (40, EvKind.noteOn),
        (100, EvKind.eot)]] := by
    norm_num [generateOutput, emitLog, genSteps, scaledEvents, trackStream,
      trackOutput, stableSortEvents, List.insertionSort, List.orderedInsert,
      evLe, evLt, getPriority, List.range_succ, List.filter, abs_le, abs_lt,
      hc0, hc40, hc100]
  have h := C6_single_eot_at_final_cursor
    ([[⟨0, 40, EvKind.noteOn⟩]] : List (List (QEvent ℚ))) [100] 1 1 1
    (by intro seg hs q hq
        rcases List.mem_singleton.mp hs with rfl
        rcases List.mem_singleton.mp hq with rfl
        simp)
    _ hgen
  exact ⟨(h _ (by simp)).1, hgen⟩

/-! ## Properties of the sort comparator

The comparator `evLt` orders by time when the times are more than `1e-6`
apart and by event-class priority otherwise.  It is always asymmetric
(hence `evLe` is total), but it is transitive only on event sets whose
times are pairwise either equal or more than `1e-6` apart — with
near-coincident unequal times the tolerance breaks transitivity, which is
exactly what the C7 amendment has to assume. -/

theorem evLt_iff_of_close {a b : α × EvKind}
    (h : ¬ 1 / 1000000 < |a.1 - b.1|) :
    evLt a b ↔ getPriority a.2 < getPriority b.2 := by
  rw [evLt, if_neg h]

theorem evLt_iff_of_far {a b : α × EvKind} (h : 1 / 1000000 < |a.1 - b.1|) :
    evLt a b ↔ a.1 < b.1 := by
  rw [evLt, if_pos h]

theorem close_of_eq {a b : α × EvKind} (h : a.1 = b.1) :
    ¬ 1 / 1000000 < |a.1 - b.1| := by
  rw [h, sub_self, abs_zero]
  norm_num

theorem evLe_total (a b : α × EvKind) : evLe a b ∨ evLe b a := by
  rw [evLe, evLe]
  by_cases hf : 1 / 1000000 < |a.1 - b.1|
  · rw [evLt_iff_of_far (by rw [abs_sub_comm]; exact hf),
      evLt_iff_of_far hf]
    rcases le_total a.1 b.1 with h | h
    · exact Or.inl (not_lt.mpr h)
    · exact Or.inr (not_lt.mpr h)
  · rw [evLt_iff_of_close (by rw [abs_sub_comm]; exact hf),
      evLt_iff_of_close hf]
    omega

theorem evLe_trans_of_sep {a b c : α × EvKind}
    (hab : a.1 = b.1 ∨ 1 / 1000000 < |a.1 - b.1|)
    (hbc : b.1 = c.1 ∨ 1 / 1000000 < |b.1 - c.1|)
    (hac : a.1 = c.1 ∨ 1 / 1000000 < |a.1 - c.1|)
    (h1 : evLe a b) (h2 : evLe b c) : evLe a c := by
  rw [evLe] at h1 h2 ⊢
  rcases hab with hab | hab <;> rcases hbc with hbc | hbc
  · -- equal, equal: priority order is transitive
    rw [evLt_iff_of_close (close_of_eq hab.symm)] at h1
    rw [evLt_iff_of_close (close_of_eq hbc.symm)] at h2
    rw [evLt_iff_of_close (close_of_eq (hab.trans hbc).symm)]
    omega
  · -- equal, far: the strict time order carries over
    rw [evLt_iff_of_far (by rw [abs_sub_comm]; exact hbc)] at h2
    have hlt : b.1 < c.1 :=
      lt_of_le_of_ne (not_lt.mp h2) (fun he => by
        rw [he, sub_self, abs_zero] at hbc
        norm_num at hbc)
    have hfac : 1 / 1000000 < |a.1 - c.1| := by rw [hab]; exact hbc
    rw [evLt_iff_of_far (by rw [abs_sub_comm]; exact hfac)]
    rw [hab]
    exact not_lt.mpr hlt.le
  · -- far, equal
    rw [evLt_iff_of_far (by rw [abs_sub_comm]; exact hab)] at h1
    have hlt : a.1 < b.1 :=
      lt_of_le_of_ne (not_lt.mp h1) (fun he => by
        rw [he, sub_self, abs_zero] at hab
        norm_num at hab)
    have hfac : 1 / 1000000 < |a.1 - c.1| := by rw [← hbc]; exact hab
    rw [evLt_iff_of_far (by rw [abs_sub_comm]; exact hfac)]
    rw [← hbc]
    exact not_lt.mpr hlt.le
  · -- far, far
    rw [evLt_iff_of_far (by rw [abs_sub_comm]; exact hab)] at h1
    rw [evLt_iff_of_far (by rw [abs_sub_comm]; exact hbc)] at h2
    have hlt1 : a.1 < b.1 :=
      lt_of_le_of_ne (not_lt.mp h1) (fun he => by
        rw [he, sub_self, abs_zero] at hab
        norm_num at hab)
    have hlt2 : b.1 < c.1 :=
      lt_of_le_of_ne (not_lt.mp h2) (fun he => by
        rw [he, sub_self, abs_zero] at hbc
        norm_num at hbc)
    rcases hac with hac | hac
    · exact absurd hac (ne_of_lt (hlt1.trans hlt2))
    · rw [evLt_iff_of_far (by rw [abs_sub_comm]; exact hac)]
      exact not_lt.mpr (hlt1.trans hlt2).le

/-! ## Local sortedness of the stable insertion sort

Mathlib's `List.sorted_insertionSort` requires global `IsTotal`/`IsTrans`
instances; the engine's comparator is only transitive on the events of a
given buffer (under the separation hypothesis), so the sortedness lemmas
are re-proved with totality/transitivity restricted to a universe list. -/

theorem orderedInsert_pairwise_local {β : Type} {r : β → β → Prop}
    [DecidableRel r] {L : List β}
    (total : ∀ x ∈ L, ∀ y ∈ L, r x y ∨ r y x)
    (htrans : ∀ x ∈ L, ∀ y ∈ L, ∀ z ∈ L, r x y → r y z → r x z) :
    ∀ (a : β) (l : List β), a ∈ L → (∀ x ∈ l, x ∈ L) →
      List.Pairwise r l → List.Pairwise r (List.orderedInsert r a l) := by
  intro a l
  induction l with
  | nil =>
    intro _ _ _
    simp
  | cons b l ih =>
    intro ha hsub hp
    rw [List.orderedInsert]
    split_ifs with hab
    · refine List.pairwise_cons.mpr ⟨?_, hp⟩
      intro x hx
      rcases List.mem_cons.mp hx with rfl | hx
      · exact hab
      · exact htrans a ha b (hsub b (by simp)) x (hsub x (by simp [hx])) hab
          ((List.pairwise_cons.mp hp).1 x hx)
    · refine List.pairwise_cons.mpr
        ⟨?_, ih ha (fun x hx => hsub x (by simp [hx])) hp.of_cons⟩
      intro x hx
      rcases (List.mem_orderedInsert r).mp hx with h | hx
      · rw [h]
        rcases total a ha b (hsub b (by simp)) with h2 | h2
        · exact absurd h2 hab
        · exact h2
      · exact (List.pairwise_cons.mp hp).1 x hx

theorem insertionSort_pairwise_local {β : Type} {r : β → β → Prop}
    [DecidableRel r] {L : List β}
    (total : ∀ x ∈ L, ∀ y ∈ L, r x y ∨ r y x)
    (htrans : ∀ x ∈ L, ∀ y ∈ L, ∀ z ∈ L, r x y → r y z → r x z) :
    ∀ l : List β, (∀ x ∈ l, x ∈ L) →
      List.Pairwise r (List.insertionSort r l) := by
  intro l
  induction l with
  | nil =>
    intro _
    simp
  | cons a l ih =>
    intro hsub
    rw [List.insertionSort]
    exact orderedInsert_pairwise_local total htrans a _ (hsub a (by simp))
      (fun x hx => hsub x (by simp [(List.mem_insertionSort r).mp hx]))
      (ih (fun x hx => hsub x (by simp [hx])))

/-- The separation hypothesis of the C7 amendment: any two buffered event
times are either exactly equal or more than `1e-6` (the comparator's
simultaneity tolerance) apart. -/
def timesSeparated (l : List (α × EvKind)) : Prop :=
  List.Pairwise (fun a b => a.1 = b.1 ∨ 1 / 1000000 < |a.1 - b.1|) l

/-- C7, amended ("corrected" claim): consider the buffered per-track
stream of a generation, *before* the final integer rounding.  If its
times are pairwise separated (equal or more than `1e-6` apart — so the
tolerance comparator is a strict weak order on the buffer), then in the
stably sorted stream events with identical timestamps appear in the fixed
priority order: metadata first, then note-off, then note-on, then other
events, with end-of-track markers last; in particular a note-off precedes
a note-on sharing its exact buffered timestamp.  The original claim about
the rounded output is false: rounding can collapse distinct buffered
times onto one tick (see the counterexample). -/
theorem C7_sorted_stream_priority_order
    (segments : List (List (QEvent α))) (deltas : List α) (numTracks : ℤ)
    (s : α) (totalSteps : ℤ) (t : ℤ)
    (hsep : timesSeparated
      (trackStream (emitLog segments deltas numTracks s totalSteps).1
        (emitLog segments deltas numTracks s totalSteps).2 t)) :
    List.Pairwise (fun a b => a.1 = b.1 →
        getPriority a.2 ≤ getPriority b.2)
      (stableSortEvents
        (trackStream (emitLog segments deltas numTracks s totalSteps).1
          (emitLog segments deltas numTracks s totalSteps).2 t)) := by
  have hsym : Symmetric (fun a b : α × EvKind =>
      a.1 = b.1 ∨ 1 / 1000000 < |a.1 - b.1|) := by
    intro x y h
    rcases h with h | h
    · exact Or.inl h.symm
    · exact Or.inr (by rw [abs_sub_comm]; exact h)
  have hsep' : ∀ x ∈ trackStream
        (emitLog segments deltas numTracks s totalSteps).1
        (emitLog segments deltas numTracks s totalSteps).2 t,
      ∀ y ∈ trackStream
        (emitLog segments deltas numTracks s totalSteps).1
        (emitLog segments deltas numTracks s totalSteps).2 t,
      x.1 = y.1 ∨ 1 / 1000000 < |x.1 - y.1| := by
    intro x hx y hy
    by_cases hxy : x = y
    · exact Or.inl (by rw [hxy])
    · exact hsep.forall hsym hx hy hxy
  have hp := insertionSort_pairwise_local
    (L := trackStream (emitLog segments deltas numTracks s totalSteps).1
      (emitLog segments deltas numTracks s totalSteps).2 t)
    (fun x _ y _ => evLe_total x y)
    (fun x hx y hy z hz h1 h2 =>
      evLe_trans_of_sep (hsep' x hx y hy) (hsep' y hy z hz)
        (hsep' x hx z hz) h1 h2)
    (trackStream (emitLog segments deltas numTracks s totalSteps).1
      (emitLog segments deltas numTracks s totalSteps).2 t)
    (fun x hx => hx)
  refine hp.imp ?_
  intro a b hab heq
  rw [evLe, evLt_iff_of_close (close_of_eq heq.symm)] at hab
  omega

/-- Witness for C7 (amended) at a concrete one-step generation whose
buffered times (`0, 0, 40, 100`) are pairwise equal-or-separated. -/
theorem C7_sorted_stream_priority_order_witness :
    List.Pairwise (fun a b => a.1 = b.1 →
        getPriority a.2 ≤ getPriority b.2)
      (stableSortEvents
        (trackStream (emitLog ([[⟨0, 40, EvKind.noteOn⟩]] :
            List (List (QEvent ℚ))) [100] 1 1 1).1
          (emitLog ([[⟨0, 40, EvKind.noteOn⟩]] :
            List (List (QEvent ℚ))) [100] 1 1 1).2 0)) := by
  apply C7_sorted_stream_priority_order
  norm_num [timesSeparated, emitLog, genSteps, scaledEvents, trackStream,
    List.filter, List.pairwise_cons, abs_le, abs_lt]

end CycleSnap
